import Mathlib

/-!
Verification development for the diff-sentinel GitHub action
(teneplaysofficial/diff, src/index.js).

The program is a sequential CI helper: it runs a list of shell commands,
aggregates per-command results, then gates on command failures and on the
working-tree diff state. We shallow-embed the program as pure Lean
functions. External collaborators (the execa command executor and the git
diff inspector) are modelled as oracles supplied to the embedded program:
a function from a command index to the execution outcome, and the booleans
and file lists that git would report. The reporting sink (GitHub Actions
core) is modelled as an event trace.
-/

namespace DiffSentinel

/-!
## JavaScript values reaching normalizeOutput

The source function normalizeOutput (src/index.js lines 52-57) receives an
arbitrary JavaScript value and inspects it at runtime: a string is
returned as is, an array is joined with newline separators via
Array.prototype.join, a Uint8Array goes through Buffer.from and toString,
and anything else yields the empty string.

We embed the JavaScript value universe as an inductive type. Constructors:
a string, an array of values, a byte buffer (Uint8Array, bytes each below
256), null, undefined, and any other value. Any other value carries the
string that the JavaScript String() conversion would produce for it, which
is the only observation the embedded code can make of such a value.
-/

inductive JsValue where
  | jstr (s : String)
  | jarr (elems : List JsValue)
  | jbytes (bytes : List Nat)
  | jnull
  | jundefined
  | jother (stringRepr : String)
deriving Repr

/-- UTF-8 decoding of a byte list, modelling Buffer.from(value).toString()
on a Uint8Array: well-formed sequences decode to their code points,
malformed bytes become the U+FFFD replacement character. -/
def utf8Decode : List Nat → List Char
  | [] => []
  | b0 :: rest =>
    if b0 < 0x80 then
      Char.ofNat b0 :: utf8Decode rest
    else if 0xC2 ≤ b0 ∧ b0 ≤ 0xDF then
      match rest with
      | b1 :: rest2 =>
        if 0x80 ≤ b1 ∧ b1 ≤ 0xBF then
          Char.ofNat ((b0 - 0xC0) * 0x40 + (b1 - 0x80)) :: utf8Decode rest2
        else
          '�' :: utf8Decode (b1 :: rest2)
      | [] => ['�']
    else if 0xE0 ≤ b0 ∧ b0 ≤ 0xEF then
      match rest with
      | b1 :: b2 :: rest3 =>
        if (0x80 ≤ b1 ∧ b1 ≤ 0xBF) ∧ (0x80 ≤ b2 ∧ b2 ≤ 0xBF) ∧
           (b0 = 0xE0 → 0xA0 ≤ b1) ∧ (b0 = 0xED → b1 ≤ 0x9F) then
          Char.ofNat ((b0 - 0xE0) * 0x1000 + (b1 - 0x80) * 0x40 + (b2 - 0x80))
            :: utf8Decode rest3
        else
          '�' :: utf8Decode (b1 :: b2 :: rest3)
      | _ => ['�']
    else if 0xF0 ≤ b0 ∧ b0 ≤ 0xF4 then
      match rest with
      | b1 :: b2 :: b3 :: rest4 =>
        if (0x80 ≤ b1 ∧ b1 ≤ 0xBF) ∧ (0x80 ≤ b2 ∧ b2 ≤ 0xBF) ∧
           (0x80 ≤ b3 ∧ b3 ≤ 0xBF) ∧
           (b0 = 0xF0 → 0x90 ≤ b1) ∧ (b0 = 0xF4 → b1 ≤ 0x8F) then
          Char.ofNat ((b0 - 0xF0) * 0x40000 + (b1 - 0x80) * 0x1000 +
            (b2 - 0x80) * 0x40 + (b3 - 0x80)) :: utf8Decode rest4
        else
          '�' :: utf8Decode (b1 :: b2 :: b3 :: rest4)
      | _ => ['�']
    else
      '�' :: utf8Decode rest
termination_by l => l.length
decreasing_by all_goals (simp [List.length_cons]; try omega)

/-- Text form of a byte buffer: Buffer.from(bytes).toString(). -/
def bufferToString (bytes : List Nat) : String :=
  String.mk (utf8Decode bytes)

mutual

/-- The JavaScript String() conversion for the embedded value universe.
Arrays stringify as their elements joined with commas, a Uint8Array also
stringifies as its comma-joined decimal bytes, null and undefined
stringify as the words null and undefined. -/
def jsToString : JsValue → String
  | .jstr s => s
  | .jarr elems => jsJoin "," elems
  | .jbytes bytes => String.intercalate "," (bytes.map (fun b => toString b))
  | .jnull => "null"
  | .jundefined => "undefined"
  | .jother r => r

/-- Array.prototype.join with a separator: null and undefined elements
become the empty string, every other element is String()-converted. -/
def jsJoin (sep : String) : List JsValue → String
  | [] => ""
  | [v] => jsJoinElem v
  | v :: rest => jsJoinElem v ++ sep ++ jsJoin sep rest

/-- One element of a join: empty for null and undefined, otherwise the
String() conversion of the element. -/
def jsJoinElem : JsValue → String
  | .jnull => ""
  | .jundefined => ""
  | v => jsToString v

end

/-- Embedding of normalizeOutput (src/index.js lines 52-57): a string is
returned unchanged, an array is joined with newline separators, a byte
buffer is decoded as text, and every other value becomes the empty
string. -/
def normalizeOutput : JsValue → String
  | .jstr s => s
  | .jarr elems => jsJoin "\n" elems
  | .jbytes bytes => bufferToString bytes
  | .jnull => ""
  | .jundefined => ""
  | .jother _ => ""

/-!
## CommandResult and the command runner

runCommand (src/index.js lines 64-99) wraps one execa invocation in a
try/catch. The executor is external; we model its outcome as an oracle
value: either the awaited call returns (success), or it throws an
ExecaError (carrying optional exitCode and signal, a message string, and
captured stdout/stderr), or it throws any other value, observed by the
catch block only through its String() conversion, which we carry directly.
-/

inductive ExecOutcome where
  | success (stdout stderr : JsValue)
  | execaError (exitCode : Option Int) (signal : Option String)
      (message : String) (stdout stderr : JsValue)
  | thrown (stringRepr : String)
deriving Repr

/-- Embedding of the CommandResult record (src/index.js lines 30-39).
The source writes the JavaScript null where we use none, and omits the
message field entirely on success, which is also none here. -/
structure CommandResult where
  command : String
  ok : Bool
  stdout : String
  stderr : String
  exitCode : Option Int
  signal : Option String
  message : Option String
deriving Repr, DecidableEq

/-- Embedding of runCommand (src/index.js lines 64-99) as a pure function
of the command text and the executor outcome. The try branch builds the
ok result; the catch branch distinguishes ExecaError from any other
thrown value exactly as the source does. -/
def runCommand (command : String) (outcome : ExecOutcome) : CommandResult :=
  match outcome with
  | .success out err =>
    { command := command
      ok := true
      stdout := normalizeOutput out
      stderr := normalizeOutput err
      exitCode := none
      signal := none
      message := none }
  | .execaError exitCode sig msg out err =>
    { command := command
      ok := false
      exitCode := exitCode
      signal := sig
      message := some msg
      stdout := normalizeOutput out
      stderr := normalizeOutput err }
  | .thrown repr =>
    { command := command
      ok := false
      exitCode := none
      signal := none
      message := some repr
      stdout := ""
      stderr := "" }

/-- Embedding of the loop body of runCommands starting at position i: one
runCommand call per remaining command, in order, results accumulated in
order. The executor oracle is indexed by position so that duplicate
command texts are executed independently, as in the source. -/
def runCommandsFrom (exec : Nat → ExecOutcome) (i : Nat) :
    List String → List CommandResult
  | [] => []
  | c :: rest => runCommand c (exec i) :: runCommandsFrom exec (i + 1) rest

/-- Embedding of runCommands (src/index.js lines 105-112): sequential
execution of every command in the list, no early exit. -/
def runCommands (exec : Nat → ExecOutcome) (cmds : List String) :
    List CommandResult :=
  runCommandsFrom exec 0 cmds

/-!
## The top-level run

The rest of src/index.js (lines 41-186) is straight-line code: resolve
inputs, run the pipeline, apply the command-failure gate, query git,
apply the diff gate, and catch any thrown error at the top. We embed it
as a pure function from the resolved configuration and an environment
oracle to the ordered trace of reporting-sink events plus a terminal
outcome. The banner block (lines 9-26) precedes input resolution and is
purely cosmetic console output; it is not part of the embedded run.
-/

/-- Resolved action configuration (src/index.js lines 42-47).
failMessageInput is the raw value of the fail-message input as returned
by core.getInput, which yields the empty string when the input is
absent. -/
structure Config where
  commands : List String
  failMessageInput : String
  failOnCommandError : Bool
  failOnDiff : Bool
deriving Repr

/-- Environment oracle: the executor outcome for each command position,
and the answers git would give when consulted. -/
structure Env where
  exec : Nat → ExecOutcome
  hasDiff : Bool
  changedFiles : List String

/-- Embedding of the failMessage resolution (src/index.js lines 43-45):
the JavaScript logical-or takes the default exactly when getInput
returned a falsy value, and the only falsy string is the empty string. -/
def effectiveFailMessage (failMessageInput : String) : String :=
  if failMessageInput = "" then
    "Generated or formatted files are out of date."
  else
    failMessageInput

/-- One block of the structured summary document built through the
core.summary builder calls in the source. -/
inductive SummaryPart where
  | heading (text : String) (level : Nat)
  | raw (text : String)
  | bulletList (items : List String)
  | codeBlock (code : String) (lang : String)
deriving Repr, DecidableEq

/-- One observable action on the reporting sink or on git, in program
order. queryDiff marks the git.hasDiff call and gitDiff the git.diff
call; the others are the core API calls of the source. -/
inductive RunEvent where
  | startGroup (title : String)
  | endGroup
  | setOutput (key : String) (value : String)
  | warning (msg : String)
  | errorLog (msg : String)
  | notice (msg : String)
  | consoleLog (msg : String)
  | queryDiff
  | gitDiff (paths : List String)
  | summaryWrite (parts : List SummaryPart)
deriving Repr, DecidableEq

/-- How a run terminates: the explicit process.exit(0) on the clean path,
a thrown Error (name and message) reaching the top-level catch, or
falling off the end of the try block. -/
inductive RunOutcome where
  | earlyExit (code : Nat)
  | fatal (errName : String) (errMessage : String)
  | completed
deriving Repr, DecidableEq

/-- The message core.setFailed receives in the top-level catch
(src/index.js lines 182-186) for each outcome that reaches it. Errors
thrown by the two gates are Error instances, so the catch prepends the
error name and a colon. -/
def setFailedMessage : RunOutcome → Option String
  | .fatal errName errMessage => some (errName ++ ": " ++ errMessage)
  | _ => none

/-- JavaScript template interpolation of a possibly-null number, as in
the exit code position of the failure aggregate: null prints null. -/
def jsShowNullableInt : Option Int → String
  | none => "null"
  | some n => toString n

/-- JavaScript template interpolation of a possibly-undefined string, as
in the message position of the failure aggregate. -/
def jsShowOptString : Option String → String
  | none => "undefined"
  | some s => s

/-- The warnings and error logs emitted for one failed command inside the
Command failures group (src/index.js lines 124-128): the command text,
the exit code when not null, and the stderr text when truthy. -/
def failureWarnEvents (f : CommandResult) : List RunEvent :=
  [.warning ("Command failed: " ++ f.command)]
    ++ (match f.exitCode with
        | some n => [.warning ("Exit code: " ++ toString n)]
        | none => [])
    ++ (if f.stderr ≠ "" then [.errorLog f.stderr] else [])

/-- The events of the command phase (src/index.js lines 114-130): the
group around the batch, the command_failures output, and, when any
command failed, the Command failures group with its per-failure lines. -/
def commandPhaseEvents (results : List CommandResult) : List RunEvent :=
  let failures := results.filter (fun r => !r.ok)
  [.startGroup "Running commands", .endGroup,
   .setOutput "command_failures" (toString failures.length)]
    ++ (if failures.length > 0 then
          [.startGroup "Command failures"]
            ++ failures.flatMap failureWarnEvents
            ++ [.endGroup]
        else [])

/-- The aggregate message of the Error thrown by the command-failure gate
(src/index.js lines 133-140): a header with the failure count, then one
line per failed command with its text, exit code and message. -/
def commandFailureMessage (failures : List CommandResult) : String :=
  "Command execution failed (" ++ toString failures.length ++ " failures):\n"
    ++ String.intercalate "\n"
        (failures.map (fun f =>
          "- " ++ f.command ++ " (exit code: "
            ++ jsShowNullableInt f.exitCode ++ "): "
            ++ jsShowOptString f.message))

/-- The summary document written on the clean path (src/index.js lines
150-153). addHeading without a level argument renders an h1. -/
def cleanSummary : List SummaryPart :=
  [.heading "Diff Sentinel" 1,
   .raw "No uncommitted changes detected\n"]

/-- The summary document written on the diff path (src/index.js lines
172-179). -/
def diffSummary (failMsg : String) (changed : List String)
    (commands : List String) : List SummaryPart :=
  [.heading "Diff Sentinel Failed" 1,
   .raw (failMsg ++ "\n"),
   .heading "Changed files" 3,
   .bulletList changed,
   .heading "How to fix" 3,
   .codeBlock (String.intercalate "\n" commands) "bash"]

/-- The events of the diff-detail path (src/index.js lines 158-179),
reached only when a diff exists: the changed_files and diff_count
outputs, the Changed files group, the Diff group, and the failure
summary. -/
def diffPhaseEvents (failMsg : String) (commands changed : List String) :
    List RunEvent :=
  [.setOutput "changed_files" (String.intercalate "\n" changed),
   .setOutput "diff_count" (toString changed.length),
   .startGroup "Changed files"]
    ++ changed.map (fun f => .consoleLog ("- " ++ f))
    ++ [.endGroup, .startGroup "Diff", .gitDiff changed, .endGroup,
        .summaryWrite (diffSummary failMsg changed commands)]

/-- Embedding of the whole run after input resolution (src/index.js
lines 114-181): the command phase, the command-failure gate, the diff
query, the clean early exit, the diff-detail reporting, and the diff
gate. Both gates throw Error instances whose name is Error. -/
def run (cfg : Config) (env : Env) : List RunEvent × RunOutcome :=
  let results := runCommands env.exec cfg.commands
  let failures := results.filter (fun r => !r.ok)
  let evCmd := commandPhaseEvents results
  if failures.length > 0 && cfg.failOnCommandError then
    (evCmd, .fatal "Error" (commandFailureMessage failures))
  else
    let evDiffQ := evCmd ++ [.queryDiff,
      .setOutput "has_diff" (if env.hasDiff then "true" else "false")]
    if !env.hasDiff then
      (evDiffQ ++ [.notice "Working tree is clean", .summaryWrite cleanSummary],
       .earlyExit 0)
    else
      let failMsg := effectiveFailMessage cfg.failMessageInput
      let ev := evDiffQ ++ diffPhaseEvents failMsg cfg.commands env.changedFiles
      if cfg.failOnDiff then
        (ev, .fatal "Error" failMsg)
      else
        (ev, .completed)

/-!
## Helper lemmas
-/

lemma intercalate_go_append (sep acc1 acc2 : String) :
    ∀ l : List String,
      String.intercalate.go (acc1 ++ acc2) sep l =
        acc1 ++ String.intercalate.go acc2 sep l := by
  intro l
  induction l generalizing acc2 with
  | nil => rw [String.intercalate.go, String.intercalate.go]
  | cons s rest ih =>
    rw [String.intercalate.go, String.intercalate.go]
    rw [String.append_assoc, String.append_assoc, ← ih]
    rw [String.append_assoc acc2 sep s]

lemma intercalate_cons_cons (sep a b : String) (rest : List String) :
    String.intercalate sep (a :: b :: rest) =
      a ++ sep ++ String.intercalate sep (b :: rest) := by
  show String.intercalate.go a sep (b :: rest) =
    a ++ sep ++ String.intercalate.go b sep rest
  rw [String.intercalate.go, String.append_assoc]
  have h := intercalate_go_append sep (a ++ sep) b rest
  rw [← h, ← String.append_assoc a sep b]

lemma jsJoin_map_jstr (sep : String) :
    ∀ l : List String,
      jsJoin sep (l.map JsValue.jstr) = String.intercalate sep l := by
  intro l
  induction l with
  | nil => simp [jsJoin, String.intercalate]
  | cons s rest ih =>
    cases rest with
    | nil =>
      simp [jsJoin, jsJoinElem, jsToString, String.intercalate,
        String.intercalate.go]
    | cons b rest2 =>
      rw [intercalate_cons_cons, ← ih]
      simp [jsJoin, jsJoinElem, jsToString]

lemma runCommandsFrom_length (exec : Nat → ExecOutcome) :
    ∀ (cmds : List String) (i : Nat),
      (runCommandsFrom exec i cmds).length = cmds.length := by
  intro cmds
  induction cmds with
  | nil => intro i; rfl
  | cons c rest ih =>
    intro i
    simp [runCommandsFrom, ih (i + 1)]

lemma runCommandsFrom_getElem? (exec : Nat → ExecOutcome) :
    ∀ (cmds : List String) (i j : Nat),
      (runCommandsFrom exec i cmds)[j]? =
        (cmds[j]?).map (fun c => runCommand c (exec (i + j))) := by
  intro cmds
  induction cmds with
  | nil => intro i j; simp [runCommandsFrom]
  | cons c rest ih =>
    intro i j
    cases j with
    | zero => simp [runCommandsFrom]
    | succ j =>
      have harith : i + (j + 1) = (i + 1) + j := by omega
      simp [runCommandsFrom, ih (i + 1) j, harith]

/-!
## Claim theorems about the runner and the pipeline
-/

/-- C1: for every command list and every executor behavior, runCommands
returns exactly one CommandResult per input command, in input order, and
the result at each position is the execution of that very command at that
position, independent of whether any earlier result had ok = false: the
loop never short-circuits. -/
theorem runCommands_results_inorder_no_shortcircuit
    (exec : Nat → ExecOutcome) (cmds : List String) :
    (runCommands exec cmds).length = cmds.length ∧
    ∀ j : Nat, (runCommands exec cmds)[j]? =
      (cmds[j]?).map (fun c => runCommand c (exec j)) := by
  refine ⟨runCommandsFrom_length exec cmds 0, fun j => ?_⟩
  have h := runCommandsFrom_getElem? exec cmds 0 j
  simpa using h

/-- C2: every CommandResult built by runCommand satisfies the record
invariant: when ok is true, exitCode, signal and message are all absent;
when ok is false, at least one of exitCode, signal or message is
present. -/
theorem runCommand_ok_invariant (c : String) (o : ExecOutcome) :
    ((runCommand c o).ok = true →
      (runCommand c o).exitCode = none ∧ (runCommand c o).signal = none ∧
        (runCommand c o).message = none) ∧
    ((runCommand c o).ok = false →
      (runCommand c o).exitCode.isSome = true ∨
        (runCommand c o).signal.isSome = true ∨
        (runCommand c o).message.isSome = true) := by
  cases o <;> simp [runCommand]

/-- C2 witness: the invariant applied to a concrete success and a
concrete ExecaError outcome. -/
theorem runCommand_ok_invariant_witness :
    ((runCommand "true" (.success (.jstr "") (.jstr ""))).exitCode = none ∧
      (runCommand "true" (.success (.jstr "") (.jstr ""))).signal = none ∧
      (runCommand "true" (.success (.jstr "") (.jstr ""))).message = none) ∧
    ((runCommand "false"
        (.execaError (some 1) none "Command failed with exit code 1: false"
          (.jstr "") (.jstr ""))).exitCode.isSome = true ∨
      (runCommand "false"
        (.execaError (some 1) none "Command failed with exit code 1: false"
          (.jstr "") (.jstr ""))).signal.isSome = true ∨
      (runCommand "false"
        (.execaError (some 1) none "Command failed with exit code 1: false"
          (.jstr "") (.jstr ""))).message.isSome = true) :=
  ⟨(runCommand_ok_invariant "true" (.success (.jstr "") (.jstr ""))).1 rfl,
   (runCommand_ok_invariant "false"
      (.execaError (some 1) none "Command failed with exit code 1: false"
        (.jstr "") (.jstr ""))).2 rfl⟩

/-- C3: runCommand is total over the outcome oracle by construction (it
is a Lean function, so the embedded try/catch always returns a
CommandResult and never propagates a fault), ok is false on each of the
two failure branches and true on the success branch, and the branch for a
thrown value that is not an ExecaError returns the result with only
message set to the stringified thrown value, exitCode and signal absent,
and empty stdout and stderr. -/
theorem runCommand_total_failure_handling :
    (∀ c out err, (runCommand c (.success out err)).ok = true) ∧
    (∀ c ec sg msg out err,
      (runCommand c (.execaError ec sg msg out err)).ok = false) ∧
    (∀ c v, runCommand c (.thrown v) =
      { command := c, ok := false, stdout := "", stderr := "",
        exitCode := none, signal := none, message := some v }) := by
  refine ⟨fun c out err => rfl, fun c ec sg msg out err => rfl,
    fun c v => rfl⟩

/-!
## Claim theorems about output normalization
-/

/-- C7: normalizeOutput is total over the embedded JavaScript value
universe, and on each shape behaves as specified: strings unchanged,
arrays of string chunks joined with newline separators, byte buffers
decoded to text, and every other value (null, undefined, anything else)
mapped to the empty string. -/
theorem normalizeOutput_total_cases :
    (∀ s, normalizeOutput (.jstr s) = s) ∧
    (∀ chunks : List String,
      normalizeOutput (.jarr (chunks.map JsValue.jstr)) =
        String.intercalate "\n" chunks) ∧
    (∀ bytes, normalizeOutput (.jbytes bytes) = bufferToString bytes) ∧
    normalizeOutput .jnull = "" ∧
    normalizeOutput .jundefined = "" ∧
    (∀ r, normalizeOutput (.jother r) = "") := by
  refine ⟨fun s => rfl, fun chunks => ?_, fun bytes => rfl, rfl, rfl,
    fun r => rfl⟩
  simpa [normalizeOutput] using jsJoin_map_jstr "\n" chunks

/-- C8: normalizeOutput is idempotent: its value is always a string, and
feeding that string back in returns it unchanged. -/
theorem normalizeOutput_idempotent (v : JsValue) :
    normalizeOutput (.jstr (normalizeOutput v)) = normalizeOutput v := rfl

/-- C10: every CommandResult with ok = false carries a present message
string: the ExecaError branch stores the executor error message and the
other catch branch stores the stringified thrown value, so message
presence does not rely on exitCode or signal. -/
theorem runCommand_failure_message_present (c : String) (o : ExecOutcome) :
    ((runCommand c o).ok = false → ((runCommand c o).message).isSome = true) ∧
    (∀ ec sg msg out err,
      (runCommand c (.execaError ec sg msg out err)).message = some msg) ∧
    (∀ v, (runCommand c (.thrown v)).message = some v) := by
  refine ⟨?_, fun ec sg msg out err => rfl, fun v => rfl⟩
  cases o <;> simp [runCommand]

/-- C10 witness: a concrete failed result has a present message. -/
theorem runCommand_failure_message_present_witness :
    ((runCommand "node build.js" (.thrown "spawn fail")).message).isSome =
      true :=
  (runCommand_failure_message_present "node build.js"
    (.thrown "spawn fail")).1 rfl

/-!
## Helper lemmas about the run trace
-/

lemma mem_failureWarnEvents (f : CommandResult) (e : RunEvent)
    (h : e ∈ failureWarnEvents f) :
    (∃ m, e = RunEvent.warning m) ∨ (∃ m, e = RunEvent.errorLog m) := by
  unfold failureWarnEvents at h
  rcases List.mem_append.mp h with h1 | h2
  · rcases List.mem_append.mp h1 with h3 | h4
    · exact .inl ⟨_, by simpa using h3⟩
    · cases hec : f.exitCode with
      | none => rw [hec] at h4; simp at h4
      | some n =>
        rw [hec] at h4
        exact .inl ⟨_, by simpa using h4⟩
  · by_cases hs : f.stderr = ""
    · simp [hs] at h2
    · rw [if_pos hs] at h2
      exact .inr ⟨_, by simpa using h2⟩

lemma commandPhase_events_shape (results : List CommandResult)
    (e : RunEvent) (h : e ∈ commandPhaseEvents results) :
    e = RunEvent.startGroup "Running commands" ∨
    e = RunEvent.endGroup ∨
    e = RunEvent.setOutput "command_failures"
          (toString ((results.filter (fun r => !r.ok)).length)) ∨
    e = RunEvent.startGroup "Command failures" ∨
    (∃ m, e = RunEvent.warning m) ∨ (∃ m, e = RunEvent.errorLog m) := by
  simp only [commandPhaseEvents] at h
  rcases List.mem_append.mp h with h1 | h2
  · simp at h1
    rcases h1 with h1 | h1 | h1
    · exact .inl h1
    · exact .inr (.inl h1)
    · exact .inr (.inr (.inl h1))
  · by_cases hpos :
      0 < ((results.filter (fun r => !r.ok)).length)
    · rw [if_pos hpos] at h2
      rcases List.mem_append.mp h2 with h3 | h4
      · rcases List.mem_append.mp h3 with h5 | h6
        · simp at h5
          exact .inr (.inr (.inr (.inl h5)))
        · rcases List.mem_flatMap.mp h6 with ⟨f, _, hf⟩
          rcases mem_failureWarnEvents f e hf with h7 | h7
          · exact .inr (.inr (.inr (.inr (.inl h7))))
          · exact .inr (.inr (.inr (.inr (.inr h7))))
      · simp at h4
        exact .inr (.inl h4)
    · rw [if_neg (by omega)] at h2
      simp at h2

lemma commandPhase_setOutput_key (results : List CommandResult)
    (k v : String) (h : RunEvent.setOutput k v ∈ commandPhaseEvents results) :
    k = "command_failures" := by
  rcases commandPhase_events_shape results _ h with
    h1 | h1 | h1 | h1 | ⟨m, h1⟩ | ⟨m, h1⟩
  · exact absurd h1 (by simp)
  · exact absurd h1 (by simp)
  · rw [RunEvent.setOutput.injEq] at h1
    exact h1.1
  · exact absurd h1 (by simp)
  · exact absurd h1 (by simp)
  · exact absurd h1 (by simp)

lemma commandPhase_no_queryDiff (results : List CommandResult) :
    RunEvent.queryDiff ∉ commandPhaseEvents results := by
  intro h
  rcases commandPhase_events_shape results _ h with
    h1 | h1 | h1 | h1 | ⟨m, h1⟩ | ⟨m, h1⟩ <;> exact absurd h1 (by simp)

lemma run_gate_fires (cfg : Config) (env : Env)
    (h1 : (runCommands env.exec cfg.commands).filter (fun r => !r.ok) ≠ [])
    (h2 : cfg.failOnCommandError = true) :
    run cfg env = (commandPhaseEvents (runCommands env.exec cfg.commands),
      RunOutcome.fatal "Error" (commandFailureMessage
        ((runCommands env.exec cfg.commands).filter (fun r => !r.ok)))) := by
  have hlen : 0 <
      ((runCommands env.exec cfg.commands).filter (fun r => !r.ok)).length :=
    List.length_pos.mpr h1
  simp [run, h2, hlen]

lemma run_diff_path (cfg : Config) (env : Env)
    (hgate : (runCommands env.exec cfg.commands).filter (fun r => !r.ok) = [] ∨
      cfg.failOnCommandError = false)
    (hd : env.hasDiff = true) :
    run cfg env =
      (commandPhaseEvents (runCommands env.exec cfg.commands)
          ++ [RunEvent.queryDiff, RunEvent.setOutput "has_diff" "true"]
          ++ diffPhaseEvents (effectiveFailMessage cfg.failMessageInput)
              cfg.commands env.changedFiles,
       if cfg.failOnDiff then
         RunOutcome.fatal "Error" (effectiveFailMessage cfg.failMessageInput)
       else
         RunOutcome.completed) := by
  by_cases hfd : cfg.failOnDiff <;>
    rcases hgate with h | h <;>
      simp [run, h, hd, hfd]

lemma run_clean_path (cfg : Config) (env : Env)
    (hgate : (runCommands env.exec cfg.commands).filter (fun r => !r.ok) = [] ∨
      cfg.failOnCommandError = false)
    (hd : env.hasDiff = false) :
    run cfg env =
      (commandPhaseEvents (runCommands env.exec cfg.commands)
          ++ [RunEvent.queryDiff, RunEvent.setOutput "has_diff" "false",
              RunEvent.notice "Working tree is clean",
              RunEvent.summaryWrite cleanSummary],
       RunOutcome.earlyExit 0) := by
  rcases hgate with h | h <;> simp [run, h, hd]

/-!
## Claim theorems about the gates
-/

/-- C4: whenever the run consults the diff inspector (the command-failure
gate did not abort) and it reports changes, with failOnDiff set, the run
ends in a fatal outcome whose attached error message is exactly the
configured effective fail message, and the top-level catch hands
core.setFailed that message prefixed with the error name. -/
theorem run_diffGate_fatal_failMessage (cfg : Config) (env : Env)
    (hgate : (runCommands env.exec cfg.commands).filter (fun r => !r.ok) = [] ∨
      cfg.failOnCommandError = false)
    (hd : env.hasDiff = true) (hfd : cfg.failOnDiff = true) :
    (run cfg env).2 =
      RunOutcome.fatal "Error" (effectiveFailMessage cfg.failMessageInput) ∧
    setFailedMessage (run cfg env).2 =
      some ("Error: " ++ effectiveFailMessage cfg.failMessageInput) := by
  have heq := run_diff_path cfg env hgate hd
  rw [heq]
  simp [hfd, setFailedMessage]

/-- C4 witness: a clean command batch, a reported diff and failOnDiff
true end in the fatal outcome carrying the configured message. -/
theorem run_diffGate_fatal_failMessage_witness :
    (run ⟨["true"], "custom message", false, true⟩
      ⟨fun _ => .success (.jstr "") (.jstr ""), true, ["a.txt"]⟩).2 =
      RunOutcome.fatal "Error" (effectiveFailMessage "custom message") :=
  (run_diffGate_fatal_failMessage
    ⟨["true"], "custom message", false, true⟩
    ⟨fun _ => .success (.jstr "") (.jstr ""), true, ["a.txt"]⟩
    (Or.inr rfl) rfl rfl).1

/-- C5: with failOnCommandError set and at least one failed result, the
run aborts fatally right after the command phase: git is never consulted
(no queryDiff event), the only machine-readable output set is
command_failures (so no has_diff, changed_files or diff_count), and the
fatal message is the aggregate that lists every failed command on its own
line with its text, exit code and failure message. -/
theorem run_commandGate_aborts_before_diff (cfg : Config) (env : Env)
    (hfc : cfg.failOnCommandError = true)
    (hfail : (runCommands env.exec cfg.commands).filter (fun r => !r.ok) ≠ []) :
    (run cfg env).2 = RunOutcome.fatal "Error" (commandFailureMessage
      ((runCommands env.exec cfg.commands).filter (fun r => !r.ok))) ∧
    RunEvent.queryDiff ∉ (run cfg env).1 ∧
    (∀ k v, RunEvent.setOutput k v ∈ (run cfg env).1 →
      k = "command_failures") ∧
    commandFailureMessage
        ((runCommands env.exec cfg.commands).filter (fun r => !r.ok)) =
      "Command execution failed ("
        ++ toString ((runCommands env.exec cfg.commands).filter
            (fun r => !r.ok)).length ++ " failures):\n"
        ++ String.intercalate "\n"
            (((runCommands env.exec cfg.commands).filter
                (fun r => !r.ok)).map (fun f =>
              "- " ++ f.command ++ " (exit code: "
                ++ jsShowNullableInt f.exitCode ++ "): "
                ++ jsShowOptString f.message)) := by
  have heq := run_gate_fires cfg env hfail hfc
  refine ⟨by rw [heq], ?_, ?_, rfl⟩
  · rw [heq]
    exact commandPhase_no_queryDiff _
  · intro k v hmem
    rw [heq] at hmem
    exact commandPhase_setOutput_key _ _ _ hmem

/-- C5 witness: one failing command with failOnCommandError set yields
the fatal aggregate outcome. -/
theorem run_commandGate_aborts_before_diff_witness :
    (run ⟨["false"], "", true, true⟩
      ⟨fun _ => .execaError (some 1) none
        "Command failed with exit code 1: false" (.jstr "") (.jstr ""),
        true, []⟩).2 =
      RunOutcome.fatal "Error" (commandFailureMessage
        ((runCommands
            (fun _ => .execaError (some 1) none
              "Command failed with exit code 1: false" (.jstr "") (.jstr ""))
            ["false"]).filter (fun r => !r.ok))) :=
  (run_commandGate_aborts_before_diff ⟨["false"], "", true, true⟩
    ⟨fun _ => .execaError (some 1) none
      "Command failed with exit code 1: false" (.jstr "") (.jstr ""),
      true, []⟩ rfl (by decide)).1

/-- C6: whenever the run consults the diff inspector and it reports no
changes, the run terminates through the explicit early exit with code 0,
the trace ends with the clean notice followed by the short clean summary,
and the only machine-readable outputs ever set on this path are
command_failures and has_diff, so changed_files and diff_count are never
set. -/
theorem run_clean_tree_early_exit (cfg : Config) (env : Env)
    (hgate : (runCommands env.exec cfg.commands).filter (fun r => !r.ok) = [] ∨
      cfg.failOnCommandError = false)
    (hd : env.hasDiff = false) :
    run cfg env =
      (commandPhaseEvents (runCommands env.exec cfg.commands)
          ++ [RunEvent.queryDiff, RunEvent.setOutput "has_diff" "false",
              RunEvent.notice "Working tree is clean",
              RunEvent.summaryWrite cleanSummary],
       RunOutcome.earlyExit 0) ∧
    (∀ k v, RunEvent.setOutput k v ∈ (run cfg env).1 →
      k = "command_failures" ∨ k = "has_diff") := by
  have heq := run_clean_path cfg env hgate hd
  refine ⟨heq, fun k v hmem => ?_⟩
  rw [heq] at hmem
  rcases List.mem_append.mp hmem with h | h
  · exact .inl (commandPhase_setOutput_key _ _ _ h)
  · simp at h
    rcases h with ⟨hk, hv⟩
    exact .inr hk

/-- C6 witness: a clean batch and a clean tree end in the early exit
with the exact clean trace tail. -/
theorem run_clean_tree_early_exit_witness :
    run ⟨["true"], "", false, true⟩
      ⟨fun _ => .success (.jstr "") (.jstr ""), false, []⟩ =
      (commandPhaseEvents (runCommands
          (fun _ => .success (.jstr "") (.jstr "")) ["true"])
          ++ [RunEvent.queryDiff, RunEvent.setOutput "has_diff" "false",
              RunEvent.notice "Working tree is clean",
              RunEvent.summaryWrite cleanSummary],
       RunOutcome.earlyExit 0) :=
  (run_clean_tree_early_exit ⟨["true"], "", false, true⟩
    ⟨fun _ => .success (.jstr "") (.jstr ""), false, []⟩
    (Or.inr rfl) rfl).1

/-- C9: an empty (or absent, which getInput reports as empty) fail
message input resolves to the built-in default text, the resolved fail
message is never the empty string, and on the diff path with an empty
input both the summary document and, when failOnDiff is set, the fatal
outcome carry that default text. -/
theorem effectiveFailMessage_default_nonempty :
    effectiveFailMessage "" = "Generated or formatted files are out of date." ∧
    (∀ s, effectiveFailMessage s ≠ "") ∧
    (∀ (cfg : Config) (env : Env),
      cfg.failMessageInput = "" →
      ((runCommands env.exec cfg.commands).filter (fun r => !r.ok) = [] ∨
        cfg.failOnCommandError = false) →
      env.hasDiff = true →
      ((cfg.failOnDiff = true → (run cfg env).2 = RunOutcome.fatal "Error"
          "Generated or formatted files are out of date.") ∧
        RunEvent.summaryWrite (diffSummary
            "Generated or formatted files are out of date."
            env.changedFiles cfg.commands) ∈ (run cfg env).1)) := by
  refine ⟨rfl, fun s => ?_, fun cfg env hin hgate hd => ?_⟩
  · by_cases h : s = "" <;> simp [effectiveFailMessage, h]
  · have heq := run_diff_path cfg env hgate hd
    constructor
    · intro hfd
      rw [heq]
      simp [hfd, hin, effectiveFailMessage]
    · rw [heq]
      simp [hin, effectiveFailMessage, diffPhaseEvents]

/-- C9 witness: the default resolution, a nonempty custom message, and a
run with empty fail-message input whose fatal outcome carries the
default text. -/
theorem effectiveFailMessage_default_nonempty_witness :
    effectiveFailMessage "" = "Generated or formatted files are out of date." ∧
    effectiveFailMessage "custom" ≠ "" ∧
    (run ⟨["true"], "", false, true⟩
      ⟨fun _ => .success (.jstr "") (.jstr ""), true, ["f.txt"]⟩).2 =
      RunOutcome.fatal "Error"
        "Generated or formatted files are out of date." :=
  ⟨effectiveFailMessage_default_nonempty.1,
   effectiveFailMessage_default_nonempty.2.1 "custom",
   (effectiveFailMessage_default_nonempty.2.2
      ⟨["true"], "", false, true⟩
      ⟨fun _ => .success (.jstr "") (.jstr ""), true, ["f.txt"]⟩
      rfl (Or.inr rfl) rfl).1 rfl⟩

end DiffSentinel
